import Mathlib

/-!
# Verification of the wheel-calc backtest engine

A shallow embedding of the core backtest engine of the `wheel-calc`
options-wheel simulator (TypeScript), together with proofs about it.

Conventions of the embedding:
* TypeScript `number` (IEEE-754 f64) is modelled as `ℝ`; division by zero
  follows Lean's `x / 0 = 0` convention and NaN is not modelled.
* Day counters and integer counters are `ℕ`; rule priorities are `ℤ`.
* `null`/`undefined` is `Option.none`.
* A TypeScript runtime error (a non-null assertion on a `null` value) is
  modelled as `Option.none` in the result of the function that would throw.
* String fields whose content is produced by numeric formatting
  (`toFixed` interpolation) are kept as fields but their formatted content
  is irrelevant to every property proved here.
-/

open scoped Classical

noncomputable section

/-! ## Data model (strategy/types.ts) -/

/-- Phase of the wheel strategy state machine. -/
inductive Phase where
  | idle_cash
  | short_put
  | holding_eth
  | short_call
deriving DecidableEq, Repr

/-- Option type tag. -/
inductive OptionType where
  | put
  | call
deriving DecidableEq, Repr

/-- A holding of the underlying. -/
structure Position where
  size : ℝ
  entryPrice : ℝ

/-- A live short option. -/
structure OpenOption where
  type : OptionType
  strike : ℝ
  delta : ℝ
  premium : ℝ
  openDay : ℕ
  expiryDay : ℕ

/-- Portfolio state, mutated only through the reducer. -/
structure PortfolioState where
  phase : Phase
  position : Option Position
  openOption : Option OpenOption
  realizedPL : ℝ
  totalPremiumCollected : ℝ
  totalAssignments : ℕ
  totalSkippedCycles : ℕ

/-- Market observation for one day. -/
structure MarketSnapshot where
  day : ℕ
  spot : ℝ
  iv : Option ℝ
  realizedVol : Option ℝ

/-- Strategy intent produced by a rule (tagged variant `Signal`). -/
inductive Signal where
  | sellPut (strike delta premium : ℝ) (rule reason : String)
  | sellCall (strike delta premium : ℝ) (rule reason : String)
  | skip (rule reason : String)
  | closePosition (rule reason : String)
  | roll (newStrike newDelta rollCost newPremium credit : ℝ) (rule reason : String)
  | hold

/-- Execution fact (tagged variant `Event`). -/
inductive Event where
  | optionSold (optionType : OptionType) (strike premium delta fees : ℝ)
      (openDay expiryDay : ℕ)
  | optionExpired (optionType : OptionType) (strike spot : ℝ) (assigned : Bool)
  | ethBought (price size : ℝ)
  | ethSold (price size pl : ℝ)
  | premiumCollected (grossPremium fees netAmount : ℝ)
  | cycleSkipped (reason : String)
  | positionClosed (price size pl : ℝ) (reason : String)
  | optionRolled (oldStrike newStrike newDelta originalPremium rollCost
      newPremium fees : ℝ) (openDay expiryDay : ℕ)

/-- `adaptive_calls` configuration block. -/
structure AdaptiveCallsConfig where
  minDelta : ℝ
  maxDelta : ℝ
  skipThresholdPct : ℝ
  minStrikeAtCost : Option Bool

/-- `iv_rv_spread` configuration block. -/
structure IVRVSpreadConfig where
  lookbackDays : ℕ
  minMultiplier : ℝ
  maxMultiplier : ℝ

/-- `roll_call` configuration block. -/
structure RollCallConfig where
  itmThresholdPct : ℝ
  requireNetCredit : Bool

/-- Strategy configuration. -/
structure StrategyConfig where
  targetDelta : ℝ
  impliedVol : ℝ
  riskFreeRate : ℝ
  cycleLengthDays : ℕ
  contracts : ℝ
  bidAskSpreadPct : ℝ
  feePerTrade : ℝ
  adaptiveCalls : Option AdaptiveCallsConfig
  ivRvSpread : Option IVRVSpreadConfig
  rollCall : Option RollCallConfig

/-- One entry of the signal log. -/
structure SignalLogEntry where
  day : ℕ
  market : MarketSnapshot
  portfolioBefore : PortfolioState
  signal : Signal
  events : List Event
  portfolioAfter : PortfolioState

/-- One entry of the daily-state vector. -/
structure DailyState where
  day : ℕ
  price : ℝ
  phase : Phase
  cumulativePL : ℝ
  unrealizedPL : ℝ
  holdingETH : Bool

/-- The summary block of a simulation result. -/
structure SimSummary where
  totalRealizedPL : ℝ
  totalPremiumCollected : ℝ
  totalAssignments : ℕ
  totalSkippedCycles : ℕ

/-- Result of one simulation. -/
structure SimulationResult where
  signalLog : List SignalLogEntry
  dailyStates : List DailyState
  summary : SimSummary

/-! ## State reducer (strategy/state.ts) -/

/-- `initialPortfolio()`. -/
def initialPortfolio : PortfolioState :=
  { phase := .idle_cash
    position := none
    openOption := none
    realizedPL := 0
    totalPremiumCollected := 0
    totalAssignments := 0
    totalSkippedCycles := 0 }

/-- `snapshotPortfolio`: a deep copy, which on pure values is the identity. -/
def snapshotPortfolio (state : PortfolioState) : PortfolioState := state

/-- One case of the `switch` inside `applyEvents`. -/
def applyEvent (s : PortfolioState) : Event → PortfolioState
  | .optionSold optionType strike premium delta _fees openDay expiryDay =>
      { s with
        openOption := some
          { type := optionType, strike := strike, delta := delta
            premium := premium, openDay := openDay, expiryDay := expiryDay }
        phase := if optionType = .put then .short_put else .short_call }
  | .optionExpired optionType _strike _spot assigned =>
      if assigned then
        { s with
          openOption := none
          phase := if optionType = .put then .holding_eth else .idle_cash
          totalAssignments := s.totalAssignments + 1 }
      else
        { s with
          openOption := none
          phase := if s.position.isSome then .holding_eth else .idle_cash }
  | .ethBought price size =>
      { s with position := some { size := size, entryPrice := price } }
  | .ethSold _price _size pl =>
      { s with position := none, realizedPL := s.realizedPL + pl }
  | .premiumCollected grossPremium _fees netAmount =>
      { s with
        totalPremiumCollected := s.totalPremiumCollected + grossPremium
        realizedPL := s.realizedPL + netAmount }
  | .cycleSkipped _reason =>
      { s with totalSkippedCycles := s.totalSkippedCycles + 1 }
  | .positionClosed _price _size pl _reason =>
      { s with
        position := none
        realizedPL := s.realizedPL + pl
        phase := .idle_cash }
  | .optionRolled _oldStrike newStrike newDelta _originalPremium rollCost
      newPremium fees openDay expiryDay =>
      { s with
        totalPremiumCollected := s.totalPremiumCollected + newPremium
        realizedPL := s.realizedPL + (newPremium - rollCost - fees)
        openOption := some
          { type := .call, strike := newStrike, delta := newDelta
            premium := newPremium, openDay := openDay, expiryDay := expiryDay }
        }

/-- `applyEvents(state, events)`: fold the events left-to-right over a copy
of the state. -/
def applyEvents (state : PortfolioState) (events : List Event) : PortfolioState :=
  events.foldl applyEvent state

/-- `toDailyState(market, portfolio, contracts)`. -/
def toDailyState (market : MarketSnapshot) (portfolio : PortfolioState)
    (contracts : ℝ) : DailyState :=
  match portfolio.position with
  | some pos =>
      { day := market.day, price := market.spot, phase := portfolio.phase
        cumulativePL := portfolio.realizedPL
        unrealizedPL := (market.spot - pos.entryPrice) * contracts
        holdingETH := true }
  | none =>
      { day := market.day, price := market.spot, phase := portfolio.phase
        cumulativePL := portfolio.realizedPL
        unrealizedPL := 0
        holdingETH := false }

/-! ## Executor (strategy/executor.ts, class SimExecutor) -/

/-- `SimExecutor.resolveExpiration`.  The TypeScript source reads
`portfolio.position!.entryPrice` in the assigned-call branch; when
`position` is `null` that throws at runtime, modelled here as `none`. -/
def resolveExpiration (market : MarketSnapshot) (portfolio : PortfolioState)
    (config : StrategyConfig) : Option (List Event) :=
  match portfolio.openOption with
  | none => some []
  | some opt =>
    match opt.type with
    | .put =>
        if market.spot < opt.strike then
          some [.optionExpired .put opt.strike market.spot true,
                .ethBought opt.strike config.contracts]
        else
          some [.optionExpired .put opt.strike market.spot false]
    | .call =>
        if market.spot ≥ opt.strike then
          match portfolio.position with
          | none => none
          | some pos =>
              some [.optionExpired .call opt.strike market.spot true,
                    .ethSold opt.strike config.contracts
                      ((opt.strike - pos.entryPrice) * config.contracts)]
        else
          some [.optionExpired .call opt.strike market.spot false]

/-- `SimExecutor.execute`. -/
def execute (signal : Signal) (market : MarketSnapshot)
    (portfolio : PortfolioState) (config : StrategyConfig) : List Event :=
  match signal with
  | .sellPut strike delta premium _rule _reason =>
      let fees := config.feePerTrade * config.contracts
      let grossPremium := premium * config.contracts
      [.optionSold .put strike premium delta fees market.day
         (market.day + config.cycleLengthDays),
       .premiumCollected grossPremium fees (grossPremium - fees)]
  | .sellCall strike delta premium _rule _reason =>
      let fees := config.feePerTrade * config.contracts
      let grossPremium := premium * config.contracts
      [.optionSold .call strike premium delta fees market.day
         (market.day + config.cycleLengthDays),
       .premiumCollected grossPremium fees (grossPremium - fees)]
  | .skip _rule reason =>
      [.cycleSkipped reason]
  | .closePosition _rule reason =>
      match portfolio.position with
      | none => []
      | some pos =>
          [.positionClosed market.spot pos.size
             ((market.spot - pos.entryPrice) * pos.size) reason]
  | .roll newStrike newDelta rollCost newPremium _credit _rule _reason =>
      match portfolio.openOption with
      | none => []
      | some opt =>
          let originalPremium := opt.premium * config.contracts
          let rollCostGross := rollCost * config.contracts
          let fees := 2 * config.feePerTrade * config.contracts
          [.optionRolled opt.strike newStrike newDelta originalPremium
             rollCostGross newPremium fees market.day
             (market.day + config.cycleLengthDays)]
  | .hold => []

/-! ## Black-Scholes pricing (black-scholes.ts) -/

/-- `cdf(x)`: cumulative standard normal via the Abramowitz-Stegun
rational approximation. -/
def cdf (x : ℝ) : ℝ :=
  let a1 : ℝ := 0.254829592
  let a2 : ℝ := -0.284496736
  let a3 : ℝ := 1.421413741
  let a4 : ℝ := -1.453152027
  let a5 : ℝ := 1.061405429
  let p : ℝ := 0.3275911
  let sign : ℝ := if x < 0 then -1 else 1
  let t : ℝ := 1 / (1 + p * |x|)
  let y : ℝ :=
    1 - ((((a5 * t + a4) * t + a3) * t + a2) * t + a1) * t * Real.exp (-x * x / 2)
  0.5 * (1 + sign * y)

/-- `d1` of the Black-Scholes formula. -/
def d1 (S K T r sigma : ℝ) : ℝ :=
  (Real.log (S / K) + (r + sigma * sigma / 2) * T) / (sigma * Real.sqrt T)

/-- `d2` of the Black-Scholes formula. -/
def d2 (S K T r sigma : ℝ) : ℝ :=
  d1 S K T r sigma - sigma * Real.sqrt T

/-- `bsCallPrice`. -/
def bsCallPrice (S K T r sigma : ℝ) : ℝ :=
  S * cdf (d1 S K T r sigma) - K * Real.exp (-r * T) * cdf (d2 S K T r sigma)

/-- `bsPutPrice`. -/
def bsPutPrice (S K T r sigma : ℝ) : ℝ :=
  K * Real.exp (-r * T) * cdf (-(d2 S K T r sigma)) - S * cdf (-(d1 S K T r sigma))

/-- `bsCallDelta`. -/
def bsCallDelta (S K T r sigma : ℝ) : ℝ :=
  cdf (d1 S K T r sigma)

/-- `bsPutDelta`. -/
def bsPutDelta (S K T r sigma : ℝ) : ℝ :=
  cdf (d1 S K T r sigma) - 1

/-- The body of the bisection loop of `findStrikeForDelta`, with explicit
fuel for the 100-iteration bound; the early `break` on a bracket narrower
than `0.01` is the terminating test after the update. -/
def bisectStrike (targetAbsDelta spot T r sigma : ℝ) (type : OptionType) :
    ℕ → ℝ → ℝ → ℝ × ℝ
  | 0, lo, hi => (lo, hi)
  | n + 1, lo, hi =>
      let mid := (lo + hi) / 2
      let absDelta :=
        match type with
        | .put => |bsPutDelta spot mid T r sigma|
        | .call => |bsCallDelta spot mid T r sigma|
      let next : ℝ × ℝ :=
        match type with
        | .put => if absDelta > targetAbsDelta then (lo, mid) else (mid, hi)
        | .call => if absDelta > targetAbsDelta then (mid, hi) else (lo, mid)
      if |next.2 - next.1| < 0.01 then next
      else bisectStrike targetAbsDelta spot T r sigma type n next.1 next.2

/-- `findStrikeForDelta`: binary search for the strike producing the
target absolute delta. -/
def findStrikeForDelta (targetAbsDelta spot T r sigma : ℝ)
    (type : OptionType) : ℝ :=
  let lo : ℝ := match type with | .put => spot * 0.5 | .call => spot
  let hi : ℝ := match type with | .put => spot | .call => spot * 1.5
  let lohi := bisectStrike targetAbsDelta spot T r sigma type 100 lo hi
  (lohi.1 + lohi.2) / 2

/-! ## Rules (strategy/rules.ts) -/

/-- A rule record; `evaluate` returns `none` where the source returns
`null`. -/
structure Rule where
  name : String
  description : String
  phase : String
  priority : ℤ
  evaluate : MarketSnapshot → PortfolioState → StrategyConfig → Option Signal

/-- `computeIVRVMultiplier(market, config)`. -/
def computeIVRVMultiplier (market : MarketSnapshot)
    (config : StrategyConfig) : ℝ :=
  match config.ivRvSpread with
  | none => 1.0
  | some spread =>
    match market.realizedVol with
    | none => 1.0
    | some rv =>
      if rv ≤ 0 then 1.0
      else
        let iv := market.iv.getD config.impliedVol
        max spread.minMultiplier (min spread.maxMultiplier (iv / rv))

/-- `basePutRule`. -/
def basePutRule : Rule where
  name := "BasePutRule"
  description := "Sell OTM put at target delta."
  phase := "idle_cash"
  priority := 100
  evaluate := fun market portfolio config =>
    if portfolio.phase = .idle_cash then
      let T := (config.cycleLengthDays : ℝ) / 365
      let vol := market.iv.getD config.impliedVol
      let ivRvMult := computeIVRVMultiplier market config
      let effectiveDelta := min (config.targetDelta * ivRvMult) 0.50
      let strike := findStrikeForDelta effectiveDelta market.spot T
        config.riskFreeRate vol .put
      let rawPremium := bsPutPrice market.spot strike T config.riskFreeRate vol
      let premium := rawPremium * (1 - config.bidAskSpreadPct)
      let delta := bsPutDelta market.spot strike T config.riskFreeRate vol
      some (.sellPut strike |delta| premium "BasePutRule" "")
    else none

/-- `computeCallDelta(market, portfolio, config)`. -/
def computeCallDelta (market : MarketSnapshot) (portfolio : PortfolioState)
    (config : StrategyConfig) : ℝ :=
  let baseDelta :=
    match config.adaptiveCalls, portfolio.position with
    | some ac, some pos =>
        let pnlPct := (market.spot - pos.entryPrice) / pos.entryPrice
        let t := max 0 (min 1 ((pnlPct + 1) / 2))
        ac.minDelta + (ac.maxDelta - ac.minDelta) * t
    | _, _ => config.targetDelta
  let ivRvMult := computeIVRVMultiplier market config
  min (baseDelta * ivRvMult) 0.50

/-- The strike floor applied by the call rules when `minStrikeAtCost` is
configured. -/
def callMinStrike (portfolio : PortfolioState) (config : StrategyConfig) : ℝ :=
  match config.adaptiveCalls, portfolio.position with
  | some ac, some pos => if ac.minStrikeAtCost.getD false then pos.entryPrice else 0
  | _, _ => 0

/-- `adaptiveCallRule`. -/
def adaptiveCallRule : Rule where
  name := "AdaptiveCallRule"
  description := "Sell OTM call with delta scaled by unrealized P/L."
  phase := "holding_eth"
  priority := 100
  evaluate := fun market portfolio config =>
    if portfolio.phase = .holding_eth then
      let T := (config.cycleLengthDays : ℝ) / 365
      let vol := market.iv.getD config.impliedVol
      let effectiveDelta := computeCallDelta market portfolio config
      let rawStrike := findStrikeForDelta effectiveDelta market.spot T
        config.riskFreeRate vol .call
      let strike := max rawStrike (callMinStrike portfolio config)
      let rawPremium := bsCallPrice market.spot strike T config.riskFreeRate vol
      let premium := rawPremium * (1 - config.bidAskSpreadPct)
      let delta := bsCallDelta market.spot strike T config.riskFreeRate vol
      some (.sellCall strike delta premium "AdaptiveCallRule" "")
    else none

/-- `lowPremiumSkipRule`. -/
def lowPremiumSkipRule : Rule where
  name := "LowPremiumSkipRule"
  description := "Skip call cycle when net premium is below a threshold."
  phase := "holding_eth"
  priority := 50
  evaluate := fun market portfolio config =>
    if portfolio.phase = .holding_eth then
      match config.adaptiveCalls, portfolio.position with
      | some ac, some pos =>
          let T := (config.cycleLengthDays : ℝ) / 365
          let vol := market.iv.getD config.impliedVol
          let effectiveDelta := computeCallDelta market portfolio config
          let rawStrike := findStrikeForDelta effectiveDelta market.spot T
            config.riskFreeRate vol .call
          let strike := max rawStrike (callMinStrike portfolio config)
          let rawPremium := bsCallPrice market.spot strike T config.riskFreeRate vol
          let premium := rawPremium * (1 - config.bidAskSpreadPct)
          let netPremium := premium * config.contracts -
            config.feePerTrade * config.contracts
          let positionValue := pos.entryPrice * config.contracts
          if netPremium < ac.skipThresholdPct * positionValue then
            some (.skip "LowPremiumSkipRule" "")
          else none
      | _, _ => none
    else none

/-- Modelled from the spec: the `RollCallRule` (priority 30, phase
`short_call`) is exercised by `tests/rules.test.ts` and
`tests/simulate.test.ts` and described in the specification, but its
implementation is missing from the provided sources.  Per the spec it is
active only when `roll_call` is configured, triggers when
`spot ≥ open_option.strike · (1 + itm_threshold_pct)`, prices a candidate
replacement call at the (IV/RV-adjusted) target delta with
`T = cycle_length_days/365`, takes the buy-back cost as the Black-Scholes
price of the open call at the current spot, suppresses the signal when
`require_net_credit` holds and the net credit is non-positive, and
otherwise emits `ROLL`. -/
def rollCallRule : Rule where
  name := "RollCallRule"
  description := "Roll an ITM short call up to a new strike before expiry."
  phase := "short_call"
  priority := 30
  evaluate := fun market portfolio config =>
    match config.rollCall, portfolio.openOption with
    | some rc, some opt =>
        if portfolio.phase = .short_call then
          if market.spot ≥ opt.strike * (1 + rc.itmThresholdPct) then
            let T := (config.cycleLengthDays : ℝ) / 365
            let vol := market.iv.getD config.impliedVol
            let ivRvMult := computeIVRVMultiplier market config
            let effectiveDelta := min (config.targetDelta * ivRvMult) 0.50
            let newStrike := findStrikeForDelta effectiveDelta market.spot T
              config.riskFreeRate vol .call
            let newPremiumRaw := bsCallPrice market.spot newStrike T
              config.riskFreeRate vol
            let newPremium := newPremiumRaw * (1 - config.bidAskSpreadPct)
            let newDelta := bsCallDelta market.spot newStrike T
              config.riskFreeRate vol
            let rollCost := bsCallPrice market.spot opt.strike T
              config.riskFreeRate vol
            if rc.requireNetCredit = true ∧ newPremium - rollCost ≤ 0 then none
            else some (.roll newStrike newDelta rollCost newPremium
              (newPremium - rollCost) "RollCallRule" "")
          else none
        else none
    | _, _ => none

/-- `defaultRules()` as written in the provided `rules.ts`. -/
def defaultRules : List Rule :=
  [lowPremiumSkipRule, basePutRule, adaptiveCallRule]

/-- The default rule set with the `RollCallRule` wired in, as exercised by
the repository's tests (which obtain `RollCallRule` from `defaultRules()`). -/
def defaultRulesWithRoll : List Rule :=
  [lowPremiumSkipRule, basePutRule, adaptiveCallRule, rollCallRule]

/-! ## Rule evaluator and decision points (strategy/strategy.ts) -/

/-- The iteration of `evaluateRules`: return the first rule that produces a
signal, else `HOLD`. -/
def firstSignal (market : MarketSnapshot) (portfolio : PortfolioState)
    (config : StrategyConfig) : List Rule → Signal
  | [] => .hold
  | r :: rs =>
    match r.evaluate market portfolio config with
    | some signal => signal
    | none => firstSignal market portfolio config rs

/-- `evaluateRules(rules, market, portfolio, config)`: sort a copy of the
rules by ascending priority (JavaScript `Array.sort` is stable, modelled by
stable insertion sort) and return the first signal. -/
def evaluateRules (rules : List Rule) (market : MarketSnapshot)
    (portfolio : PortfolioState) (config : StrategyConfig) : Signal :=
  firstSignal market portfolio config
    (rules.insertionSort (fun a b => a.priority ≤ b.priority))

/-- `isDecisionPoint(day, portfolio)`. -/
def isDecisionPoint (day : ℕ) (portfolio : PortfolioState) : Prop :=
  match portfolio.openOption with
  | none => True
  | some opt => day ≥ opt.expiryDay

/-! ## Simulation driver (strategy/simulate.ts) -/

/-- The daily log returns used by `computeRealizedVol`: the loop
`for (i = day - lookback + 1; i <= day; i++)` pushing
`log(prices[i] / prices[i-1])`.  Out-of-range indexing yields the junk
value `0` (the driver only calls this with in-range days). -/
def logReturnsEndingAt (prices : List ℝ) (day lookback : ℕ) : List ℝ :=
  (List.range lookback).map fun k =>
    Real.log (prices.getD (day - lookback + 1 + k) 0 /
      prices.getD (day - lookback + k) 0)

/-- `computeRealizedVol(prices, day, lookback)`: sample standard deviation
(`n - 1` denominator) of the `lookback` daily log returns ending at `day`,
annualized by `sqrt 365`; `none` when `day < lookback`. -/
def computeRealizedVol (prices : List ℝ) (day lookback : ℕ) : Option ℝ :=
  if day < lookback then none
  else
    let logReturns := logReturnsEndingAt prices day lookback
    let mean := logReturns.sum / (logReturns.length : ℝ)
    let variance := (logReturns.map (fun r => (r - mean) ^ 2)).sum /
      ((logReturns.length : ℝ) - 1)
    some (Real.sqrt variance * Real.sqrt 365)

/-- Build the day's `MarketSnapshot` inside the simulation loop. -/
def mkMarket (prices : List ℝ) (ivPath : Option (List ℝ))
    (config : StrategyConfig) (day : ℕ) : MarketSnapshot :=
  let rv :=
    match config.ivRvSpread with
    | some spread => computeRealizedVol prices day spread.lookbackDays
    | none => none
  { day := day, spot := prices.getD day 0
    iv := ivPath.bind (fun l => l.get? day), realizedVol := rv }

/-- The mid-cycle roll trigger of the simulation loop. -/
def rollTrigger (market : MarketSnapshot) (portfolio : PortfolioState)
    (config : StrategyConfig) (day : ℕ) : Prop :=
  ¬ isDecisionPoint day portfolio ∧
    match config.rollCall, portfolio.openOption with
    | some rc, some opt =>
        portfolio.phase = .short_call ∧
          market.spot ≥ opt.strike * (1 + rc.itmThresholdPct)
    | _, _ => False

/-- Accumulator of the simulation loop. -/
structure SimState where
  portfolio : PortfolioState
  signalLog : List SignalLogEntry
  dailyStates : List DailyState

/-- The expiry-resolution block of the loop body: when the open option has
expired, resolve it, apply the events, and log a `HOLD` entry.  `none`
propagates the modelled runtime error of `resolveExpiration`. -/
def expiryStep (market : MarketSnapshot) (config : StrategyConfig)
    (portfolio : PortfolioState) (log : List SignalLogEntry) (day : ℕ) :
    Option (PortfolioState × List SignalLogEntry) :=
  match portfolio.openOption with
  | some opt =>
      if day ≥ opt.expiryDay then
        (resolveExpiration market portfolio config).map fun expiryEvents =>
          let p1 := applyEvents portfolio expiryEvents
          (p1, log ++ [{ day := day, market := market
                         portfolioBefore := snapshotPortfolio portfolio
                         signal := .hold, events := expiryEvents
                         portfolioAfter := snapshotPortfolio p1 }])
      else some (portfolio, log)
  | none => some (portfolio, log)

/-- The signal block of the loop body: evaluate the rules and, when the
signal is not `HOLD`, execute it, apply the events and log the entry. -/
def signalStep (market : MarketSnapshot) (config : StrategyConfig)
    (rules : List Rule) (portfolio : PortfolioState)
    (log : List SignalLogEntry) (day : ℕ) :
    PortfolioState × List SignalLogEntry :=
  match evaluateRules rules market portfolio config with
  | .hold => (portfolio, log)
  | signal =>
      let execEvents := execute signal market portfolio config
      let p2 := applyEvents portfolio execEvents
      (p2, log ++ [{ day := day, market := market
                     portfolioBefore := snapshotPortfolio portfolio
                     signal := signal, events := execEvents
                     portfolioAfter := snapshotPortfolio p2 }])

/-- One iteration of the simulation loop (`for (day = 0; ...)` body). -/
def simDay (prices : List ℝ) (ivPath : Option (List ℝ)) (rules : List Rule)
    (config : StrategyConfig) (st : SimState) (day : ℕ) : Option SimState :=
  let market := mkMarket prices ivPath config day
  if isDecisionPoint day st.portfolio ∨ rollTrigger market st.portfolio config day then
    (expiryStep market config st.portfolio st.signalLog day).map fun p1log =>
      let p2log := signalStep market config rules p1log.1 p1log.2 day
      { portfolio := p2log.1, signalLog := p2log.2
        dailyStates := st.dailyStates ++
          [toDailyState market p2log.1 config.contracts] }
  else
    some { portfolio := st.portfolio, signalLog := st.signalLog
           dailyStates := st.dailyStates ++
             [toDailyState market st.portfolio config.contracts] }

/-- The state after the first `n` days of the loop. -/
def runDays (prices : List ℝ) (ivPath : Option (List ℝ)) (rules : List Rule)
    (config : StrategyConfig) : ℕ → Option SimState
  | 0 => some { portfolio := initialPortfolio, signalLog := [], dailyStates := [] }
  | n + 1 =>
      (runDays prices ivPath rules config n).bind fun st =>
        simDay prices ivPath rules config st n

/-- `simulate(prices, rules, config, ivPath?)`. -/
def simulate (prices : List ℝ) (rules : List Rule) (config : StrategyConfig)
    (ivPath : Option (List ℝ)) : Option SimulationResult :=
  (runDays prices ivPath rules config prices.length).map fun st =>
    { signalLog := st.signalLog
      dailyStates := st.dailyStates
      summary :=
        { totalRealizedPL := st.portfolio.realizedPL
          totalPremiumCollected := st.portfolio.totalPremiumCollected
          totalAssignments := st.portfolio.totalAssignments
          totalSkippedCycles := st.portfolio.totalSkippedCycles } }

/-! ## Monte Carlo per-run summary (monte-carlo.ts) -/

/-- Market regime classification. -/
inductive Regime where
  | bull
  | bear
  | sideways
deriving DecidableEq, Repr

/-- Per-run summary.  Counters that the TypeScript code treats as plain
numbers in later arithmetic are `ℝ` here. -/
structure RunSummary where
  seed : ℕ
  totalPL : ℝ
  realizedPL : ℝ
  unrealizedPL : ℝ
  premiumCollected : ℝ
  assignments : ℝ
  fullCycles : ℝ
  apr : ℝ
  maxDrawdown : ℝ
  skippedCycles : ℝ
  isWin : Bool
  benchmarkPL : ℝ
  benchmarkAPR : ℝ
  benchmarkMaxDD : ℝ
  sharpe : ℝ
  sortino : ℝ
  benchmarkSharpe : ℝ
  benchmarkSortino : ℝ
  regime : Regime
  underlyingReturn : ℝ

/-- Per-regime aggregate block. -/
structure RegimeBreakdown where
  regime : Regime
  count : ℕ
  meanAPR : ℝ
  meanBenchmarkAPR : ℝ
  meanAlpha : ℝ
  meanSharpe : ℝ
  winRate : ℝ
  meanMaxDrawdown : ℝ

/-- Aggregate Monte Carlo result (the fields the insight generator reads). -/
structure MonteCarloResult where
  runs : List RunSummary
  winRate : ℝ
  meanAPR : ℝ
  medianAPR : ℝ
  p5APR : ℝ
  p25APR : ℝ
  p75APR : ℝ
  p95APR : ℝ
  meanPL : ℝ
  medianPL : ℝ
  meanMaxDrawdown : ℝ
  meanBenchmarkAPR : ℝ
  medianBenchmarkAPR : ℝ
  meanBenchmarkPL : ℝ
  meanBenchmarkMaxDD : ℝ
  meanSharpe : ℝ
  meanSortino : ℝ
  benchmarkMeanSharpe : ℝ
  benchmarkMeanSortino : ℝ
  regimeBreakdown : List RegimeBreakdown

/-- One step of the peak-to-trough scan shared by the drawdown functions;
`none` in the first component models the `-Infinity` initial peak. -/
def mddStep (acc : Option ℝ × ℝ) (totalPL : ℝ) : Option ℝ × ℝ :=
  let pk :=
    match acc.1 with
    | none => totalPL
    | some pk0 => if totalPL > pk0 then totalPL else pk0
  let dd := pk - totalPL
  (some pk, if dd > acc.2 then dd else acc.2)

/-- `computeMaxDrawdown(dailyStates)`. -/
def computeMaxDrawdown (dailyStates : List DailyState) : ℝ :=
  ((dailyStates.map fun d => d.cumulativePL + d.unrealizedPL).foldl
    mddStep (none, 0)).2

/-- `computeBenchmarkMaxDD(prices, contracts)`. -/
def computeBenchmarkMaxDD (prices : List ℝ) (contracts : ℝ) : ℝ :=
  let p0 := prices.getD 0 0
  ((prices.map fun p => (p - p0) * contracts).foldl mddStep (none, 0)).2

/-- `computeSharpe(dailyReturns, rfDaily)`. -/
def computeSharpe (dailyReturns : List ℝ) (rfDaily : ℝ) : ℝ :=
  if dailyReturns.length < 2 then 0
  else
    let n : ℝ := dailyReturns.length
    let mean := dailyReturns.sum / n
    let variance := (dailyReturns.map fun r => (r - mean) ^ 2).sum / (n - 1)
    let std := Real.sqrt variance
    if std = 0 then 0 else (mean - rfDaily) / std * Real.sqrt 365

/-- `computeSortino(dailyReturns, rfDaily)`. -/
def computeSortino (dailyReturns : List ℝ) (rfDaily : ℝ) : ℝ :=
  if dailyReturns.length < 2 then 0
  else
    let n : ℝ := dailyReturns.length
    let mean := dailyReturns.sum / n
    let downsideVariance :=
      (dailyReturns.map fun r =>
        let diff := r - rfDaily
        if diff < 0 then diff ^ 2 else 0).sum / (n - 1)
    let downsideStd := Real.sqrt downsideVariance
    if downsideStd = 0 then 0 else (mean - rfDaily) / downsideStd * Real.sqrt 365

/-- `classifyRegime(underlyingReturn, days)`. -/
def classifyRegime (underlyingReturn days : ℝ) : Regime :=
  let annualizedReturn := underlyingReturn * (365 / days)
  if annualizedReturn > 0.20 then .bull
  else if annualizedReturn < -0.20 then .bear
  else .sideways

/-- Does an event record an assigned call expiry? -/
def isAssignedCallExpiry : Event → Bool
  | .optionExpired .call _ _ true => true
  | _ => false

/-- `countFullCycles(signalLog)`: entries containing an `OPTION_EXPIRED`
for a call with `assigned = true`. -/
def countFullCycles (signalLog : List SignalLogEntry) : ℕ :=
  (signalLog.filter fun entry => entry.events.any isAssignedCallExpiry).length

/-- Placeholder daily state used to model JavaScript array indexing inside
`summarizeRun`; the indices used are always in range. -/
def dummyDaily : DailyState :=
  { day := 0, price := 0, phase := .idle_cash, cumulativePL := 0
    unrealizedPL := 0, holdingETH := false }

/-- `summarizeRun(seed, result, prices, capitalAtRisk, yearsElapsed,
rfAnnual, contracts)`. -/
def summarizeRun (seed : ℕ) (result : SimulationResult) (prices : List ℝ)
    (capitalAtRisk yearsElapsed rfAnnual contracts : ℝ) : RunSummary :=
  let lastDay := result.dailyStates.getLast?
  let unrealizedPL := (lastDay.map (·.unrealizedPL)).getD 0
  let totalPL := result.summary.totalRealizedPL + unrealizedPL
  let apr := if yearsElapsed > 0 then
    result.summary.totalRealizedPL / capitalAtRisk / yearsElapsed * 100 else 0
  let maxDrawdown := computeMaxDrawdown result.dailyStates
  let p0 := prices.getD 0 0
  let pN := prices.getD (prices.length - 1) 0
  let benchmarkPL := (pN - p0) * contracts
  let benchmarkAPR := if yearsElapsed > 0 then
    benchmarkPL / capitalAtRisk / yearsElapsed * 100 else 0
  let benchmarkMaxDD := computeBenchmarkMaxDD prices contracts
  let underlyingReturn := (pN - p0) / p0
  let days : ℝ := (prices.length : ℝ) - 1
  let regime := classifyRegime underlyingReturn (if days > 0 then days else 1)
  let rfDaily := rfAnnual / 365
  let wheelDailyReturns := (List.range (result.dailyStates.length - 1)).map fun i =>
    let prev := result.dailyStates.getD i dummyDaily
    let curr := result.dailyStates.getD (i + 1) dummyDaily
    ((curr.cumulativePL + curr.unrealizedPL) -
      (prev.cumulativePL + prev.unrealizedPL)) / capitalAtRisk
  let benchDailyReturns := (List.range (prices.length - 1)).map fun i =>
    (prices.getD (i + 1) 0 - prices.getD i 0) / p0
  { seed := seed
    totalPL := totalPL
    realizedPL := result.summary.totalRealizedPL
    unrealizedPL := unrealizedPL
    premiumCollected := result.summary.totalPremiumCollected
    assignments := (result.summary.totalAssignments : ℝ)
    fullCycles := (countFullCycles result.signalLog : ℝ)
    apr := apr
    maxDrawdown := maxDrawdown
    skippedCycles := (result.summary.totalSkippedCycles : ℝ)
    isWin := if totalPL > 0 then true else false
    benchmarkPL := benchmarkPL
    benchmarkAPR := benchmarkAPR
    benchmarkMaxDD := benchmarkMaxDD
    sharpe := computeSharpe wheelDailyReturns rfDaily
    sortino := computeSortino wheelDailyReturns rfDaily
    benchmarkSharpe := computeSharpe benchDailyReturns rfDaily
    benchmarkSortino := computeSortino benchDailyReturns rfDaily
    regime := regime
    underlyingReturn := underlyingReturn }

/-! ## Insight generator (insights.ts) -/

/-- Severity level of an insight. -/
inductive InsightLevel where
  | positive
  | neutral
  | warning
  | negative
deriving DecidableEq, Repr

/-- An advisory produced by the insight generator.  `message` carries
interpolated numbers in the source; its content is irrelevant here. -/
structure Insight where
  level : InsightLevel
  title : String
  message : String
  suggestion : Option String

/-- `evaluatePerformance`. -/
def evaluatePerformance (mc : MonteCarloResult) : List Insight :=
  if mc.meanSharpe < 0 then
    [{ level := .negative, title := "Poor Risk-Adjusted Returns", message := ""
       suggestion := some "Consider reducing contracts or reviewing strategy parameters." }]
  else if mc.meanSharpe < mc.benchmarkMeanSharpe then
    [{ level := .warning, title := "Underperforming Benchmark", message := ""
       suggestion := some "Try lowering target delta to reduce assignment risk." }]
  else
    [{ level := .positive, title := "Strong Risk-Adjusted Returns", message := ""
       suggestion := none }]

/-- `evaluateAlpha`. -/
def evaluateAlpha (alpha : ℝ) : List Insight :=
  if alpha > 5 then
    [{ level := .positive, title := "Significant Alpha", message := ""
       suggestion := some "Consider increasing contracts to scale this edge." }]
  else if alpha < -5 then
    [{ level := .negative, title := "Negative Alpha", message := ""
       suggestion := some "Review strategy parameters." }]
  else
    [{ level := .neutral, title := "Similar to Buy & Hold", message := ""
       suggestion := none }]

/-- `evaluateDownsideProfile`. -/
def evaluateDownsideProfile (mc : MonteCarloResult) : List Insight :=
  if mc.meanSharpe > 0 ∧ mc.meanSortino > mc.meanSharpe * 1.5 then
    [{ level := .positive, title := "Downside Well Contained", message := ""
       suggestion := none }]
  else if mc.meanSharpe < 0 ∧ mc.meanSortino > mc.meanSharpe * 1.2 then
    [{ level := .warning, title := "High Downside Volatility", message := ""
       suggestion := some "Consider increasing skip threshold or lowering target delta." }]
  else []

/-- Regime display label. -/
def regimeLabel : Regime → String
  | .bull => "Bull"
  | .bear => "Bear"
  | .sideways => "Sideways"

/-- Suggestion attached to the regime-vulnerability warnings. -/
def regimeSuggestion : Regime → String
  | .bull => "Consider lowering max call delta to retain more upside."
  | .bear => "Consider lowering target delta to reduce assignment risk."
  | .sideways => "Consider adjusting cycle length to capture more premium."

/-- `evaluateRegimeVulnerability`. -/
def evaluateRegimeVulnerability (mc : MonteCarloResult) : List Insight :=
  mc.regimeBreakdown.filterMap fun rb =>
    if rb.count > 0 ∧ rb.meanAlpha < -10 then
      some { level := .warning
             title := "Weak in " ++ regimeLabel rb.regime ++ " Regimes"
             message := ""
             suggestion := some (regimeSuggestion rb.regime) }
    else none

/-- `evaluateRisk`.  The local `capitalAtRisk`/`meanCapital` bindings of
the source are dead code and are omitted; `|| 1` on the APR divisor is the
zero test. -/
def evaluateRisk (mc : MonteCarloResult) (_config : StrategyConfig) :
    List Insight :=
  let drawdownInsights :=
    if mc.meanMaxDrawdown > 0 ∧ mc.runs.length > 0 then
      let divisor := mc.meanBenchmarkAPR / 100
      let avgStartExposure :=
        |mc.meanBenchmarkPL / (if divisor = 0 then 1 else divisor)|
      if mc.meanMaxDrawdown > avgStartExposure * 0.5 ∧ avgStartExposure > 0 then
        [{ level := .negative, title := "Large Average Drawdown", message := ""
           suggestion := some "Consider reducing contracts to limit downside exposure." }]
      else []
    else []
  drawdownInsights ++
    (if mc.winRate < 0.4 then
      [{ level := .warning, title := "Low Win Rate", message := ""
         suggestion := some "Consider adjusting delta or cycle length to improve consistency." }]
    else [])

/-- `evaluateAssignmentRate`. -/
def evaluateAssignmentRate (mc : MonteCarloResult) : List Insight :=
  if mc.runs.length = 0 then []
  else
    let totalAssignments := (mc.runs.map (·.assignments)).sum
    let totalCycles := (mc.runs.map (·.fullCycles)).sum
    if totalCycles = 0 then []
    else
      let assignmentRate := totalAssignments / totalCycles
      if assignmentRate > 0.5 then
        [{ level := .warning, title := "High Assignment Rate", message := ""
           suggestion := some "Consider lowering target delta to reduce assignment frequency." }]
      else if assignmentRate > 0.3 then
        [{ level := .neutral, title := "Moderate Assignment Rate", message := ""
           suggestion := none }]
      else []

/-- `generateInsights(mc, config)`. -/
def generateInsights (mc : MonteCarloResult) (config : StrategyConfig) :
    List Insight :=
  evaluatePerformance mc ++
    evaluateAlpha (mc.meanAPR - mc.meanBenchmarkAPR) ++
    evaluateDownsideProfile mc ++
    evaluateRegimeVulnerability mc ++
    evaluateRisk mc config ++
    evaluateAssignmentRate mc

/-! ## Concrete fixtures used by witnesses -/

/-- A baseline configuration (the one used throughout the test suite). -/
def cfg0 : StrategyConfig :=
  { targetDelta := 0.30, impliedVol := 0.92, riskFreeRate := 0.05
    cycleLengthDays := 7, contracts := 1, bidAskSpreadPct := 0.05
    feePerTrade := 0.50, adaptiveCalls := none, ivRvSpread := none
    rollCall := none }

/-- The baseline configuration with two contracts. -/
def cfg2 : StrategyConfig := { cfg0 with contracts := 2 }

/-- A concrete market snapshot. -/
def mkt0 : MarketSnapshot := { day := 0, spot := 2500, iv := none, realizedVol := none }

/-- A concrete live short call. -/
def opt1 : OpenOption :=
  { type := .call, strike := 2600, delta := 0.3, premium := 40
    openDay := 0, expiryDay := 7 }

/-- A concrete short-call portfolio. -/
def p1 : PortfolioState :=
  { initialPortfolio with
    phase := .short_call
    position := some { size := 1, entryPrice := 2400 }
    openOption := some opt1 }

/-! ## C6: reducer round-trip laws -/

/-- C6: for every portfolio state `s`, `apply_events(s, [])` equals `s`,
and for all event lists `a`, `b`,
`apply_events(apply_events(s, a), b) = apply_events(s, a ++ b)`. -/
theorem applyEvents_empty_and_append (s : PortfolioState) (a b : List Event) :
    applyEvents s [] = s ∧
      applyEvents (applyEvents s a) b = applyEvents s (a ++ b) := by
  refine ⟨rfl, ?_⟩
  simp [applyEvents, List.foldl_append]

/-! ## C5: expiry resolution -/

/-- C5: with an open option, `resolve_expiration` emits exactly one
`OPTION_EXPIRED` whose `assigned` flag is `spot < strike` for a put and
`spot ≥ strike` for a call, followed when assigned by
`ETH_BOUGHT(strike, contracts)` for a put or by
`ETH_SOLD(strike, contracts, (strike − entry_price)·contracts)` for a
call; with no open option it returns the empty event list. -/
theorem resolveExpiration_events (market : MarketSnapshot)
    (portfolio : PortfolioState) (config : StrategyConfig) :
    (portfolio.openOption = none →
      resolveExpiration market portfolio config = some []) ∧
    (∀ opt, portfolio.openOption = some opt → opt.type = .put →
      resolveExpiration market portfolio config =
        some (if market.spot < opt.strike then
          [.optionExpired .put opt.strike market.spot true,
           .ethBought opt.strike config.contracts]
        else [.optionExpired .put opt.strike market.spot false])) ∧
    (∀ opt, portfolio.openOption = some opt → opt.type = .call →
      market.spot < opt.strike →
      resolveExpiration market portfolio config =
        some [.optionExpired .call opt.strike market.spot false]) ∧
    (∀ opt pos, portfolio.openOption = some opt → opt.type = .call →
      portfolio.position = some pos → market.spot ≥ opt.strike →
      resolveExpiration market portfolio config =
        some [.optionExpired .call opt.strike market.spot true,
              .ethSold opt.strike config.contracts
                ((opt.strike - pos.entryPrice) * config.contracts)]) := by
  refine ⟨fun h => by simp [resolveExpiration, h], ?_, ?_, ?_⟩
  · intro opt hopt hput
    simp only [resolveExpiration, hopt, hput]
    split <;> rfl
  · intro opt hopt hcall hlt
    simp [resolveExpiration, hopt, hcall, not_le.mpr hlt]
  · intro opt pos hopt hcall hpos hge
    simp [resolveExpiration, hopt, hcall, hpos, hge]

/-- Witness for C5 at a concrete input with no open option. -/
theorem resolveExpiration_events_witness :
    resolveExpiration mkt0 initialPortfolio cfg0 = some [] :=
  (resolveExpiration_events mkt0 initialPortfolio cfg0).1 rfl

/-! ## C9: roll accounting mixes scaled and unscaled amounts -/

/-- C9: executing a `ROLL` signal against a portfolio with an open option
produces a single `OPTION_ROLLED` event with
`originalPremium = open_option.premium · contracts` and
`rollCost = signal.rollCost · contracts`, but with
`newPremium = signal.newPremium` not multiplied by `contracts`; the
reducer then adds the unscaled `newPremium` to `total_premium_collected`
and `newPremium − rollCost − fees` to `realized_pl`. -/
theorem execute_roll_mixed_scaling (market : MarketSnapshot)
    (portfolio : PortfolioState) (config : StrategyConfig) (opt : OpenOption)
    (ns nd rcost np cr : ℝ) (ru rs : String)
    (hopt : portfolio.openOption = some opt) :
    execute (.roll ns nd rcost np cr ru rs) market portfolio config =
      [.optionRolled opt.strike ns nd (opt.premium * config.contracts)
        (rcost * config.contracts) np
        (2 * config.feePerTrade * config.contracts)
        market.day (market.day + config.cycleLengthDays)] ∧
    (applyEvents portfolio
        (execute (.roll ns nd rcost np cr ru rs) market portfolio config)).totalPremiumCollected
      = portfolio.totalPremiumCollected + np ∧
    (applyEvents portfolio
        (execute (.roll ns nd rcost np cr ru rs) market portfolio config)).realizedPL
      = portfolio.realizedPL +
          (np - rcost * config.contracts -
            2 * config.feePerTrade * config.contracts) := by
  refine ⟨by simp [execute, hopt], ?_, ?_⟩ <;>
    simp [execute, hopt, applyEvents, applyEvent]

/-- Witness for C9: with two contracts the reducer credits the
per-contract new premium while debiting the whole-position roll cost. -/
theorem execute_roll_mixed_scaling_witness :
    (applyEvents p1
        (execute (.roll 2900 0.25 55 60 3 "RollCallRule" "") mkt0 p1 cfg2)).realizedPL
      = p1.realizedPL + (60 - 55 * cfg2.contracts - 2 * cfg2.feePerTrade * cfg2.contracts) :=
  (execute_roll_mixed_scaling mkt0 p1 cfg2 opt1 2900 0.25 55 60 3
    "RollCallRule" "" rfl).2.2

/-! ## C10: the sell paths are unguarded -/

/-- C10: `execute` on `SELL_PUT`/`SELL_CALL` returns the pair
`[OPTION_SOLD, PREMIUM_COLLECTED]` for every portfolio state, with no
guard on phase or on an existing open option — unlike `CLOSE_POSITION`
and `ROLL`, which return the empty list when their preconditions fail;
applying the sell events to a portfolio that already holds an open option
overwrites that option while keeping the previously booked premium. -/
theorem execute_sell_unguarded (market : MarketSnapshot)
    (portfolio : PortfolioState) (config : StrategyConfig)
    (strike delta premium : ℝ) (ru rs : String) :
    (execute (.sellPut strike delta premium ru rs) market portfolio config =
      [.optionSold .put strike premium delta
         (config.feePerTrade * config.contracts) market.day
         (market.day + config.cycleLengthDays),
       .premiumCollected (premium * config.contracts)
         (config.feePerTrade * config.contracts)
         (premium * config.contracts - config.feePerTrade * config.contracts)]) ∧
    (execute (.sellCall strike delta premium ru rs) market portfolio config =
      [.optionSold .call strike premium delta
         (config.feePerTrade * config.contracts) market.day
         (market.day + config.cycleLengthDays),
       .premiumCollected (premium * config.contracts)
         (config.feePerTrade * config.contracts)
         (premium * config.contracts - config.feePerTrade * config.contracts)]) ∧
    (portfolio.position = none →
      execute (.closePosition ru rs) market portfolio config = []) ∧
    (portfolio.openOption = none → ∀ ns nd rcost np cr,
      execute (.roll ns nd rcost np cr ru rs) market portfolio config = []) ∧
    (∀ old, portfolio.openOption = some old →
      (applyEvents portfolio
          (execute (.sellPut strike delta premium ru rs) market portfolio config)).openOption
        = some { type := .put, strike := strike, delta := delta
                 premium := premium, openDay := market.day
                 expiryDay := market.day + config.cycleLengthDays } ∧
      (applyEvents portfolio
          (execute (.sellPut strike delta premium ru rs) market portfolio config)).totalPremiumCollected
        = portfolio.totalPremiumCollected + premium * config.contracts) := by
  refine ⟨by simp [execute], by simp [execute], ?_, ?_, ?_⟩
  · intro h; simp [execute, h]
  · intro h ns nd rcost np cr; simp [execute, h]
  · intro old hold
    constructor <;> simp [execute, applyEvents, applyEvent]

/-- Witness for C10: selling a put over a live short call silently
replaces the open option. -/
theorem execute_sell_unguarded_witness :
    (applyEvents p1
        (execute (.sellPut 2300 0.3 50 "BasePutRule" "") mkt0 p1 cfg2)).openOption
      = some { type := .put, strike := 2300, delta := 0.3, premium := 50
               openDay := mkt0.day
               expiryDay := mkt0.day + cfg2.cycleLengthDays } :=
  ((execute_sell_unguarded mkt0 p1 cfg2 2300 0.3 50 "BasePutRule" "").2.2.2.2
    opt1 rfl).1

/-! ## C7: realized volatility -/

/-- The sample standard deviation with `n − 1` denominator, as the claim
words it. -/
def sampleStdDev (xs : List ℝ) : ℝ :=
  let mean := xs.sum / (xs.length : ℝ)
  Real.sqrt ((xs.map fun x => (x - mean) ^ 2).sum / ((xs.length : ℝ) - 1))

/-- Indexing a replicated list inside its range gives the element. -/
theorem getD_replicate_of_lt (m i : ℕ) (c : ℝ) (h : i < m) :
    (List.replicate m c).getD i 0 = c := by
  simp [List.getD, List.getElem?_replicate, h]

/-- C7: `compute_realized_vol` returns `none` exactly when
`day < lookback`; otherwise it returns the sample standard deviation of
the `lookback` daily log returns ending at `day` times `√365`; the value
is non-negative, and `0` for a constant price series. -/
theorem computeRealizedVol_spec (prices : List ℝ) (day lookback : ℕ) :
    (day < lookback → computeRealizedVol prices day lookback = none) ∧
    (lookback ≤ day → computeRealizedVol prices day lookback =
      some (sampleStdDev (logReturnsEndingAt prices day lookback) *
        Real.sqrt 365)) ∧
    (∀ v, computeRealizedVol prices day lookback = some v → 0 ≤ v) ∧
    (∀ (c : ℝ) (m : ℕ), c ≠ 0 → lookback ≤ day → day < m →
      computeRealizedVol (List.replicate m c) day lookback = some 0) := by
  refine ⟨fun h => by simp [computeRealizedVol, h], ?_, ?_, ?_⟩
  · intro h
    simp only [computeRealizedVol, not_lt.mpr h, if_false, sampleStdDev]
  · intro v hv
    by_cases h : day < lookback
    · simp [computeRealizedVol, h] at hv
    · simp only [computeRealizedVol, h, if_false, Option.some.injEq] at hv
      subst hv
      exact mul_nonneg (Real.sqrt_nonneg _) (Real.sqrt_nonneg _)
  · intro c m hc hld hdm
    have hlr : logReturnsEndingAt (List.replicate m c) day lookback =
        List.replicate lookback 0 := by
      rw [List.eq_replicate_iff]
      constructor
      · simp [logReturnsEndingAt]
      · intro b hb
        simp only [logReturnsEndingAt, List.mem_map, List.mem_range] at hb
        obtain ⟨k, hk, rfl⟩ := hb
        rw [getD_replicate_of_lt m _ c (by omega),
          getD_replicate_of_lt m _ c (by omega), div_self hc, Real.log_one]
    simp [computeRealizedVol, not_lt.mpr hld, hlr]

/-- Witness for C7 at a concrete out-of-range day. -/
theorem computeRealizedVol_spec_witness :
    computeRealizedVol [] 0 5 = none ∧
      computeRealizedVol (List.replicate 10 (2500 : ℝ)) 6 3 = some 0 :=
  ⟨(computeRealizedVol_spec [] 0 5).1 (by decide),
   (computeRealizedVol_spec (List.replicate 10 (2500 : ℝ)) 6 3).2.2.2 2500 10
     (by norm_num) (by decide) (by decide)⟩

/-! ## C8: regime classification boundaries -/

/-- The annualized return the claim describes:
`underlying_return · 365 / max(days − 1, 1)` with `days` the length of
the price series. -/
def claimAnnualizedReturn (prices : List ℝ) : ℝ :=
  (prices.getD (prices.length - 1) 0 - prices.getD 0 0) / prices.getD 0 0 *
    365 / max ((prices.length : ℝ) - 1) 1

/-- The `days > 0 ? days : 1` clamp applied to `length − 1` equals
`max (length − 1) 1` for an integer length. -/
theorem jsDayClamp_eq_max (len : ℕ) :
    (if ((len : ℝ) - 1) > 0 then ((len : ℝ) - 1) else 1) =
      max ((len : ℝ) - 1) 1 := by
  match len with
  | 0 => norm_num
  | 1 => norm_num
  | n + 2 =>
    have h0 : (0 : ℝ) ≤ (n : ℝ) := Nat.cast_nonneg n
    have h1 : (0 : ℝ) < ((n + 2 : ℕ) : ℝ) - 1 := by push_cast; linarith
    have h2 : (1 : ℝ) ≤ ((n + 2 : ℕ) : ℝ) - 1 := by push_cast; linarith
    rw [if_pos h1, max_eq_left h2]

/-- C8: the regime assigned by `summarizeRun` is `bull` iff
`underlying_return · 365 / max(days − 1, 1) > 0.20`, `bear` iff it is
`< −0.20`, and `sideways` otherwise; in particular an annualized return of
exactly `+20%` classifies as `sideways`. -/
theorem summarizeRun_regime_spec (seed : ℕ) (result : SimulationResult)
    (prices : List ℝ) (capitalAtRisk yearsElapsed rfAnnual contracts : ℝ) :
    ((summarizeRun seed result prices capitalAtRisk yearsElapsed rfAnnual
        contracts).regime = .bull ↔ claimAnnualizedReturn prices > 0.20) ∧
    ((summarizeRun seed result prices capitalAtRisk yearsElapsed rfAnnual
        contracts).regime = .bear ↔ claimAnnualizedReturn prices < -0.20) ∧
    ((summarizeRun seed result prices capitalAtRisk yearsElapsed rfAnnual
        contracts).regime = .sideways ↔
      ¬ claimAnnualizedReturn prices > 0.20 ∧
        ¬ claimAnnualizedReturn prices < -0.20) ∧
    (∀ u d : ℝ, u * 365 / d = 0.20 → classifyRegime u d = .sideways) := by
  have hregime : (summarizeRun seed result prices capitalAtRisk yearsElapsed
      rfAnnual contracts).regime =
      classifyRegime
        ((prices.getD (prices.length - 1) 0 - prices.getD 0 0) /
          prices.getD 0 0)
        (max ((prices.length : ℝ) - 1) 1) := by
    simp only [summarizeRun, jsDayClamp_eq_max]
  have hann : ∀ u d : ℝ, u * (365 / d) = u * 365 / d := fun u d =>
    mul_div_assoc' u 365 d
  refine ⟨?_, ?_, ?_, ?_⟩
  · rw [hregime]
    simp only [classifyRegime, claimAnnualizedReturn, hann]
    split_ifs with h1 h2 <;> simp_all
  · rw [hregime]
    simp only [classifyRegime, claimAnnualizedReturn, hann]
    split_ifs with h1 h2 <;> simp_all
    linarith
  · rw [hregime]
    simp only [classifyRegime, claimAnnualizedReturn, hann]
    split_ifs with h1 h2 <;> simp_all
  · intro u d h
    simp only [classifyRegime, hann, h]
    norm_num

/-- A concrete empty simulation result. -/
def emptySimResult : SimulationResult :=
  { signalLog := [], dailyStates := []
    summary := { totalRealizedPL := 0, totalPremiumCollected := 0
                 totalAssignments := 0, totalSkippedCycles := 0 } }

/-- Witness for C8: an annualized return of exactly `+20%` is `sideways`. -/
theorem summarizeRun_regime_spec_witness :
    classifyRegime 0.20 365 = .sideways :=
  (summarizeRun_regime_spec 0 emptySimResult [] 0 0 0 0).2.2.2 0.20 365
    (by norm_num)

/-! ## C4: assignment-frequency insight -/

/-- A run with one assignment and one full cycle (all other fields
irrelevant). -/
def runCE : RunSummary :=
  { seed := 1, totalPL := 0, realizedPL := 0, unrealizedPL := 0
    premiumCollected := 0, assignments := 1, fullCycles := 1, apr := 0
    maxDrawdown := 0, skippedCycles := 0, isWin := false, benchmarkPL := 0
    benchmarkAPR := 0, benchmarkMaxDD := 0, sharpe := 0, sortino := 0
    benchmarkSharpe := 0, benchmarkSortino := 0, regime := .sideways
    underlyingReturn := 0 }

/-- A Monte Carlo result with a single run of one assignment and one full
cycle. -/
def mcCE : MonteCarloResult :=
  { runs := [runCE], winRate := 0, meanAPR := 0, medianAPR := 0, p5APR := 0
    p25APR := 0, p75APR := 0, p95APR := 0, meanPL := 0, medianPL := 0
    meanMaxDrawdown := 0, meanBenchmarkAPR := 0, medianBenchmarkAPR := 0
    meanBenchmarkPL := 0, meanBenchmarkMaxDD := 0, meanSharpe := 0
    meanSortino := 0, benchmarkMeanSharpe := 0, benchmarkMeanSortino := 0
    regimeBreakdown := [] }

/-- C4 counterexample: the claim requires mean assignments `≥ 3` before
any assignment-frequency insight is emitted (and a warning only for a
mean-assignments-to-mean-cycles quotient `> 3`), but the code emits a
warning already for a single run with one assignment and one full cycle,
whose mean assignments is `1 < 3` and whose quotient is `1`. -/
theorem evaluateAssignmentRate_counterexample :
    evaluateAssignmentRate mcCE =
      [{ level := .warning, title := "High Assignment Rate", message := ""
         suggestion := some "Consider lowering target delta to reduce assignment frequency." }] ∧
    (mcCE.runs.map (·.assignments)).sum / (mcCE.runs.length : ℝ) = 1 ∧
    ((mcCE.runs.map (·.assignments)).sum / (mcCE.runs.length : ℝ)) /
        ((mcCE.runs.map (·.fullCycles)).sum / (mcCE.runs.length : ℝ)) = 1 ∧
    (1 : ℝ) < 3 := by
  refine ⟨?_, by norm_num [mcCE, runCE], by norm_num [mcCE, runCE], by norm_num⟩
  norm_num [evaluateAssignmentRate, mcCE, runCE]

/-- C4 amended: the assignment-frequency insight is emitted only when the
run list is non-empty and the total full cycles over all runs is non-zero;
with `rate = total_assignments / total_full_cycles` it is a warning iff
`rate > 0.5`, otherwise a neutral insight iff `rate > 0.3`; there is no
guard on mean assignments.  Every insight it produces appears in the
output of `generate_insights`. -/
theorem evaluateAssignmentRate_spec (mc : MonteCarloResult) :
    (mc.runs.length = 0 → evaluateAssignmentRate mc = []) ∧
    (mc.runs.length ≠ 0 → (mc.runs.map (·.fullCycles)).sum = 0 →
      evaluateAssignmentRate mc = []) ∧
    (mc.runs.length ≠ 0 → (mc.runs.map (·.fullCycles)).sum ≠ 0 →
      ((mc.runs.map (·.assignments)).sum /
            (mc.runs.map (·.fullCycles)).sum > 0.5 →
        evaluateAssignmentRate mc =
          [{ level := .warning, title := "High Assignment Rate", message := ""
             suggestion := some "Consider lowering target delta to reduce assignment frequency." }]) ∧
      (¬ (mc.runs.map (·.assignments)).sum /
            (mc.runs.map (·.fullCycles)).sum > 0.5 →
        (mc.runs.map (·.assignments)).sum /
            (mc.runs.map (·.fullCycles)).sum > 0.3 →
        evaluateAssignmentRate mc =
          [{ level := .neutral, title := "Moderate Assignment Rate"
             message := "", suggestion := none }]) ∧
      (¬ (mc.runs.map (·.assignments)).sum /
            (mc.runs.map (·.fullCycles)).sum > 0.5 →
        ¬ (mc.runs.map (·.assignments)).sum /
            (mc.runs.map (·.fullCycles)).sum > 0.3 →
        evaluateAssignmentRate mc = [])) ∧
    (∀ i ∈ evaluateAssignmentRate mc, ∀ config,
      i ∈ generateInsights mc config) := by
  refine ⟨fun h => by simp [evaluateAssignmentRate, h], ?_, ?_, ?_⟩
  · intro h1 h2
    simp [evaluateAssignmentRate, h1, h2]
  · intro h1 h2
    refine ⟨fun h3 => ?_, fun h3 h4 => ?_, fun h3 h4 => ?_⟩
    · simp [evaluateAssignmentRate, h1, h2, h3]
    · simp [evaluateAssignmentRate, h1, h2, h3, h4]
    · simp [evaluateAssignmentRate, h1, h2, h3, h4]
  · intro i hi config
    simp only [generateInsights, List.mem_append]
    exact Or.inr hi

/-- Witness for the amended C4 at the concrete one-run result. -/
theorem evaluateAssignmentRate_spec_witness :
    evaluateAssignmentRate mcCE =
      [{ level := .warning, title := "High Assignment Rate", message := ""
         suggestion := some "Consider lowering target delta to reduce assignment frequency." }] :=
  ((evaluateAssignmentRate_spec mcCE).2.2.1 (by norm_num [mcCE])
    (by norm_num [mcCE, runCE])).1 (by norm_num [mcCE, runCE])

/-! ## C2: premium booked once -/

/-- Is the event a `PREMIUM_COLLECTED`? -/
def isPremiumCollected : Event → Bool
  | .premiumCollected _ _ _ => true
  | _ => false

/-- The amount an event adds to `total_premium_collected` in the reducer. -/
def premiumContribution : Event → ℝ
  | .premiumCollected grossPremium _ _ => grossPremium
  | .optionRolled _ _ _ _ _ newPremium _ _ _ => newPremium
  | _ => 0

/-- Sum of `grossPremium` over the `PREMIUM_COLLECTED` events of a list. -/
def grossPremiumSum (events : List Event) : ℝ :=
  (events.map fun e =>
    match e with
    | .premiumCollected grossPremium _ _ => grossPremium
    | _ => 0).sum

/-- Sum of `newPremium` over the `OPTION_ROLLED` events of a list. -/
def rolledPremiumSum (events : List Event) : ℝ :=
  (events.map fun e =>
    match e with
    | .optionRolled _ _ _ _ _ newPremium _ _ _ => newPremium
    | _ => 0).sum

/-- Total premium contribution of all events of a log. -/
def logPremium (log : List SignalLogEntry) : ℝ :=
  (((log.map (·.events)).flatten).map premiumContribution).sum

theorem logPremium_append (a b : List SignalLogEntry) :
    logPremium (a ++ b) = logPremium a + logPremium b := by
  simp [logPremium]

theorem logPremium_single (e : SignalLogEntry) :
    logPremium [e] = (e.events.map premiumContribution).sum := by
  simp [logPremium]

theorem applyEvent_totalPremium (s : PortfolioState) (e : Event) :
    (applyEvent s e).totalPremiumCollected =
      s.totalPremiumCollected + premiumContribution e := by
  cases e <;> simp [applyEvent, premiumContribution]
  split <;> rfl

theorem applyEvents_totalPremium (evs : List Event) (s : PortfolioState) :
    (applyEvents s evs).totalPremiumCollected =
      s.totalPremiumCollected + (evs.map premiumContribution).sum := by
  induction evs generalizing s with
  | nil => simp [applyEvents]
  | cons e evs ih =>
    have : applyEvents s (e :: evs) = applyEvents (applyEvent s e) evs := rfl
    rw [this, ih, applyEvent_totalPremium]
    simp [add_assoc]

theorem premiumContribution_split (evs : List Event) :
    (evs.map premiumContribution).sum =
      grossPremiumSum evs + rolledPremiumSum evs := by
  induction evs with
  | nil => simp [grossPremiumSum, rolledPremiumSum]
  | cons e evs ih =>
    simp only [grossPremiumSum, rolledPremiumSum, List.map_cons,
      List.sum_cons] at ih ⊢
    cases e <;> simp [premiumContribution, ih] <;> ring

theorem expiryStep_premium (market : MarketSnapshot) (config : StrategyConfig)
    (p : PortfolioState) (log : List SignalLogEntry) (day : ℕ)
    (p' : PortfolioState) (log' : List SignalLogEntry)
    (h : expiryStep market config p log day = some (p', log')) :
    ∃ extra, log' = log ++ extra ∧
      p'.totalPremiumCollected = p.totalPremiumCollected + logPremium extra := by
  unfold expiryStep at h
  split at h
  · split at h
    · obtain ⟨evs, hevs, hmap⟩ := Option.map_eq_some'.mp h
      simp only [Prod.mk.injEq] at hmap
      refine ⟨_, hmap.2.symm, ?_⟩
      rw [logPremium_single, ← hmap.1, applyEvents_totalPremium]
    · simp only [Option.some.injEq, Prod.mk.injEq] at h
      exact ⟨[], by simp [h.2.symm], by simp [h.1.symm, logPremium]⟩
  · simp only [Option.some.injEq, Prod.mk.injEq] at h
    exact ⟨[], by simp [h.2.symm], by simp [h.1.symm, logPremium]⟩

theorem signalStep_premium (market : MarketSnapshot) (config : StrategyConfig)
    (rules : List Rule) (p : PortfolioState) (log : List SignalLogEntry)
    (day : ℕ) :
    ∃ extra, (signalStep market config rules p log day).2 = log ++ extra ∧
      (signalStep market config rules p log day).1.totalPremiumCollected =
        p.totalPremiumCollected + logPremium extra := by
  unfold signalStep
  cases hsig : evaluateRules rules market p config
  case hold => exact ⟨[], by simp, by simp [logPremium]⟩
  all_goals
    exact ⟨_, rfl, by rw [logPremium_single, applyEvents_totalPremium]⟩

theorem simDay_premium (prices : List ℝ) (ivPath : Option (List ℝ))
    (rules : List Rule) (config : StrategyConfig) (st : SimState) (day : ℕ)
    (st' : SimState)
    (h : simDay prices ivPath rules config st day = some st') :
    ∃ extra, st'.signalLog = st.signalLog ++ extra ∧
      st'.portfolio.totalPremiumCollected =
        st.portfolio.totalPremiumCollected + logPremium extra := by
  simp only [simDay] at h
  split at h
  · obtain ⟨⟨pp, ll⟩, hexp, heq⟩ := Option.map_eq_some'.mp h
    subst heq
    obtain ⟨e1, hl1, hp1⟩ := expiryStep_premium _ _ _ _ _ _ _ hexp
    obtain ⟨e2, hl2, hp2⟩ := signalStep_premium
      (mkMarket prices ivPath config day) config rules pp ll day
    refine ⟨e1 ++ e2, ?_, ?_⟩
    · dsimp only
      rw [hl2, hl1, List.append_assoc]
    · dsimp only
      rw [hp2, hp1, logPremium_append]
      ring
  · simp only [Option.some.injEq] at h
    exact ⟨[], by simp [← h], by simp [← h, logPremium]⟩

theorem runDays_premium (prices : List ℝ) (ivPath : Option (List ℝ))
    (rules : List Rule) (config : StrategyConfig) :
    ∀ n st, runDays prices ivPath rules config n = some st →
      st.portfolio.totalPremiumCollected = logPremium st.signalLog := by
  intro n
  induction n with
  | zero =>
    intro st h
    simp only [runDays, Option.some.injEq] at h
    simp [← h, initialPortfolio, logPremium]
  | succ n ih =>
    intro st h
    simp only [runDays, Option.bind_eq_some] at h
    obtain ⟨st0, h0, hday⟩ := h
    obtain ⟨extra, hl, hp⟩ := simDay_premium _ _ _ _ _ _ _ hday
    rw [hp, ih st0 h0, hl, logPremium_append]

/-- C2: for every simulation, `summary.total_premium_collected` equals the
sum of `grossPremium` over the `PREMIUM_COLLECTED` events of the signal
log plus the sum of `newPremium` over its `OPTION_ROLLED` events, and no
event list produced by `resolve_expiration` contains a
`PREMIUM_COLLECTED` event. -/
theorem premium_booked_once (prices : List ℝ) (rules : List Rule)
    (config : StrategyConfig) (ivPath : Option (List ℝ))
    (res : SimulationResult)
    (h : simulate prices rules config ivPath = some res) :
    res.summary.totalPremiumCollected =
      grossPremiumSum ((res.signalLog.map (·.events)).flatten) +
        rolledPremiumSum ((res.signalLog.map (·.events)).flatten) ∧
    ∀ market portfolio config2 evs,
      resolveExpiration market portfolio config2 = some evs →
      ∀ e ∈ evs, isPremiumCollected e = false := by
  constructor
  · simp only [simulate, Option.map_eq_some'] at h
    obtain ⟨st, hst, hres⟩ := h
    have htot := runDays_premium prices ivPath rules config _ st hst
    rw [← hres]
    simpa [logPremium] using htot.trans (premiumContribution_split _)
  · intro market portfolio config2 evs hevs e he
    unfold resolveExpiration at hevs
    repeat' split at hevs
    all_goals
      first
      | exact Option.noConfusion hevs
      | (simp only [Option.some.injEq] at hevs
         subst hevs
         simp only [List.mem_cons, List.not_mem_nil, or_false] at he
         try obtain rfl | rfl := he
         try obtain rfl := he
         all_goals rfl)

/-- Witness for C2 at the empty simulation. -/
theorem premium_booked_once_witness :
    emptySimResult.summary.totalPremiumCollected =
      grossPremiumSum ((emptySimResult.signalLog.map (·.events)).flatten) +
        rolledPremiumSum ((emptySimResult.signalLog.map (·.events)).flatten) ∧
    ∀ market portfolio config2 evs,
      resolveExpiration market portfolio config2 = some evs →
      ∀ e ∈ evs, isPremiumCollected e = false :=
  premium_booked_once [] [] cfg0 none emptySimResult rfl

/-! ## C3: phase/position invariant -/

/-- The phase/presence invariant of a portfolio, strengthened with the
coherence of the open option's type and the phase. -/
def PhaseInv (s : PortfolioState) : Prop :=
  (s.position.isSome = true ↔
    s.phase = .holding_eth ∨ s.phase = .short_call) ∧
  (s.openOption.isSome = true ↔
    s.phase = .short_put ∨ s.phase = .short_call) ∧
  ∀ o, s.openOption = some o → (o.type = .put ↔ s.phase = .short_put)

/-- What a signal may assume about the state it is executed against so
that the invariant is preserved (the spec's rule contract: rules gate on
phase). -/
def SignalOk (p : PortfolioState) : Signal → Prop
  | .sellPut _ _ _ _ _ => p.position = none
  | .sellCall _ _ _ _ _ => p.position.isSome = true
  | .closePosition _ _ => p.position.isSome = true → p.openOption = none
  | .roll _ _ _ _ _ _ _ => p.openOption.isSome = true → p.phase = .short_call
  | .skip _ _ => True
  | .hold => True

/-- A rule respects the contract: on any invariant-satisfying state, a
signal it emits is admissible for that state. -/
def RuleOk (r : Rule) : Prop :=
  ∀ m p c sig, PhaseInv p → r.evaluate m p c = some sig → SignalOk p sig

theorem PhaseInv_initial : PhaseInv initialPortfolio := by
  refine ⟨?_, ?_, ?_⟩ <;> simp [initialPortfolio]

theorem resolveExpiration_inv (market : MarketSnapshot) (p : PortfolioState)
    (config : StrategyConfig) (evs : List Event) (hInv : PhaseInv p)
    (hevs : resolveExpiration market p config = some evs) :
    PhaseInv (applyEvents p evs) := by
  obtain ⟨hpos, hopt, htype⟩ := hInv
  rcases hoo : p.openOption with _ | opt
  · simp only [resolveExpiration, hoo, Option.some.injEq] at hevs
    subst hevs
    exact ⟨hpos, hopt, htype⟩
  · rcases hty : opt.type with _ | _
    · -- an expiring put
      by_cases hlt : market.spot < opt.strike
      · simp only [resolveExpiration, hoo, hty, if_pos hlt,
          Option.some.injEq] at hevs
        subst hevs
        refine ⟨?_, ?_, ?_⟩ <;> simp [applyEvents, applyEvent]
      · simp only [resolveExpiration, hoo, hty, if_neg hlt,
          Option.some.injEq] at hevs
        subst hevs
        have hput : p.phase = Phase.short_put := (htype opt hoo).mp hty
        have hnone : p.position.isSome = false := by
          rw [Bool.eq_false_iff]
          intro hsome
          rcases hpos.mp hsome with h | h <;> rw [hput] at h <;>
            exact Phase.noConfusion h
        refine ⟨?_, ?_, ?_⟩ <;> simp [applyEvents, applyEvent, hnone]
    · -- an expiring call
      have hphase : p.phase = Phase.short_call := by
        rcases hopt.mp (by rw [hoo]; rfl) with h | h
        · have hc := (htype opt hoo).mpr h
          rw [hty] at hc
          exact OptionType.noConfusion hc
        · exact h
      by_cases hge : market.spot ≥ opt.strike
      · rcases hpp : p.position with _ | pos
        · simp only [resolveExpiration, hoo, hty, if_pos hge, hpp] at hevs
          exact Option.noConfusion hevs
        · simp only [resolveExpiration, hoo, hty, if_pos hge, hpp,
            Option.some.injEq] at hevs
          subst hevs
          refine ⟨?_, ?_, ?_⟩ <;> simp [applyEvents, applyEvent]
      · simp only [resolveExpiration, hoo, hty, if_neg hge,
          Option.some.injEq] at hevs
        subst hevs
        have hsome : p.position.isSome = true := hpos.mpr (Or.inr hphase)
        refine ⟨?_, ?_, ?_⟩ <;> simp [applyEvents, applyEvent, hsome]

theorem execute_inv (sig : Signal) (market : MarketSnapshot)
    (p : PortfolioState) (config : StrategyConfig) (hInv : PhaseInv p)
    (hok : SignalOk p sig) : PhaseInv (applyEvents p (execute sig market p config)) := by
  obtain ⟨hpos, hopt, htype⟩ := hInv
  cases sig with
  | sellPut strike delta premium ru rs =>
    have hnone : p.position = none := hok
    refine ⟨?_, ?_, ?_⟩ <;> simp [execute, applyEvents, applyEvent, hnone]
  | sellCall strike delta premium ru rs =>
    have hsome : p.position.isSome = true := hok
    refine ⟨?_, ?_, ?_⟩ <;> simp [execute, applyEvents, applyEvent, hsome]
  | skip ru rs =>
    refine ⟨?_, ?_, ?_⟩ <;> simp [execute, applyEvents, applyEvent, hpos, hopt]
    exact htype
  | closePosition ru rs =>
    cases hp : p.position with
    | none =>
      have : applyEvents p (execute (.closePosition ru rs) market p config) = p := by
        simp [execute, hp, applyEvents]
      rw [this]
      exact ⟨hpos, hopt, htype⟩
    | some pos =>
      have hoptnone : p.openOption = none := hok (by rw [hp]; rfl)
      refine ⟨?_, ?_, ?_⟩ <;>
        simp [execute, hp, applyEvents, applyEvent, hoptnone]
  | roll ns nd rc np cr ru rs =>
    cases ho : p.openOption with
    | none =>
      have : applyEvents p (execute (.roll ns nd rc np cr ru rs) market p config) = p := by
        simp [execute, ho, applyEvents]
      rw [this]
      exact ⟨hpos, hopt, htype⟩
    | some opt =>
      have hphase : p.phase = .short_call := hok (by rw [ho]; rfl)
      have hsome : p.position.isSome = true := hpos.mpr (Or.inr hphase)
      refine ⟨?_, ?_, ?_⟩ <;>
        simp [execute, ho, applyEvents, applyEvent, hsome, hphase]
  | hold =>
    have : applyEvents p (execute .hold market p config) = p := by
      simp [execute, applyEvents]
    rw [this]
    exact ⟨hpos, hopt, htype⟩

theorem firstSignal_cases (m : MarketSnapshot) (p : PortfolioState)
    (c : StrategyConfig) :
    ∀ l sig, firstSignal m p c l = sig →
      sig = .hold ∨ ∃ r ∈ l, r.evaluate m p c = some sig := by
  intro l
  induction l with
  | nil => intro sig h; exact Or.inl h.symm
  | cons r rs ih =>
    intro sig h
    unfold firstSignal at h
    cases hr : r.evaluate m p c with
    | some s =>
      rw [hr] at h
      simp only at h
      exact Or.inr ⟨r, List.mem_cons_self r rs, by rw [hr, h]⟩
    | none =>
      rw [hr] at h
      simp only at h
      rcases ih sig h with h1 | ⟨r2, hr2, hev⟩
      · exact Or.inl h1
      · exact Or.inr ⟨r2, List.mem_cons_of_mem r hr2, hev⟩

theorem evaluateRules_cases (rules : List Rule) (m : MarketSnapshot)
    (p : PortfolioState) (c : StrategyConfig) (sig : Signal)
    (h : evaluateRules rules m p c = sig) :
    sig = .hold ∨ ∃ r ∈ rules, r.evaluate m p c = some sig := by
  rcases firstSignal_cases m p c _ sig h with h1 | ⟨r, hr, hev⟩
  · exact Or.inl h1
  · exact Or.inr ⟨r, (List.mem_insertionSort _).mp hr, hev⟩

theorem signalStep_inv (market : MarketSnapshot) (config : StrategyConfig)
    (rules : List Rule) (p : PortfolioState) (log : List SignalLogEntry)
    (day : ℕ) (hInv : PhaseInv p) (hR : ∀ r ∈ rules, RuleOk r) :
    PhaseInv (signalStep market config rules p log day).1 := by
  unfold signalStep
  cases hsig : evaluateRules rules market p config
  case hold => exact hInv
  all_goals
    dsimp only
    rcases evaluateRules_cases rules market p config _ hsig with heq | ⟨r, hr, hev⟩
    · exact Signal.noConfusion heq
    · exact execute_inv _ market p config ⟨hInv.1, hInv.2.1, hInv.2.2⟩
        (hR r hr market p config _ ⟨hInv.1, hInv.2.1, hInv.2.2⟩ hev)

theorem expiryStep_inv (market : MarketSnapshot) (config : StrategyConfig)
    (p : PortfolioState) (log : List SignalLogEntry) (day : ℕ)
    (p' : PortfolioState) (log' : List SignalLogEntry) (hInv : PhaseInv p)
    (h : expiryStep market config p log day = some (p', log')) :
    PhaseInv p' := by
  unfold expiryStep at h
  split at h
  · split at h
    · obtain ⟨evs, hevs, hmap⟩ := Option.map_eq_some'.mp h
      simp only [Prod.mk.injEq] at hmap
      rw [← hmap.1]
      exact resolveExpiration_inv market p config evs hInv hevs
    · simp only [Option.some.injEq, Prod.mk.injEq] at h
      rw [← h.1]
      exact hInv
  · simp only [Option.some.injEq, Prod.mk.injEq] at h
    rw [← h.1]
    exact hInv

theorem simDay_inv (prices : List ℝ) (ivPath : Option (List ℝ))
    (rules : List Rule) (config : StrategyConfig) (st : SimState) (day : ℕ)
    (st' : SimState) (hInv : PhaseInv st.portfolio)
    (hR : ∀ r ∈ rules, RuleOk r)
    (h : simDay prices ivPath rules config st day = some st') :
    PhaseInv st'.portfolio := by
  simp only [simDay] at h
  split at h
  · obtain ⟨⟨pp, ll⟩, hexp, heq⟩ := Option.map_eq_some'.mp h
    subst heq
    dsimp only
    exact signalStep_inv _ _ _ _ _ _
      (expiryStep_inv _ _ _ _ _ _ _ hInv hexp) hR
  · simp only [Option.some.injEq] at h
    rw [← h]
    exact hInv

/-- C3: in every portfolio state reached by the simulation loop after a
full day's events — for any rule set respecting the phase contract —
`position` is present iff the phase is `holding_eth` or `short_call`, and
`openOption` is present iff the phase is `short_put` or `short_call`. -/
theorem phase_position_invariant (prices : List ℝ) (ivPath : Option (List ℝ))
    (rules : List Rule) (config : StrategyConfig)
    (hR : ∀ r ∈ rules, RuleOk r) :
    ∀ n st, runDays prices ivPath rules config n = some st →
      (st.portfolio.position.isSome = true ↔
        st.portfolio.phase = .holding_eth ∨
          st.portfolio.phase = .short_call) ∧
      (st.portfolio.openOption.isSome = true ↔
        st.portfolio.phase = .short_put ∨
          st.portfolio.phase = .short_call) := by
  have key : ∀ n st, runDays prices ivPath rules config n = some st →
      PhaseInv st.portfolio := by
    intro n
    induction n with
    | zero =>
      intro st h
      simp only [runDays, Option.some.injEq] at h
      rw [← h]
      exact PhaseInv_initial
    | succ n ih =>
      intro st h
      simp only [runDays, Option.bind_eq_some] at h
      obtain ⟨st0, h0, hday⟩ := h
      exact simDay_inv _ _ _ _ _ _ _ (ih st0 h0) hR hday
  intro n st h
  exact ⟨(key n st h).1, (key n st h).2.1⟩

/-- The skip rule only emits `SKIP`, which is always admissible. -/
theorem lowPremiumSkipRule_ruleOk : RuleOk lowPremiumSkipRule := by
  intro m p c sig _hInv hev
  simp only [lowPremiumSkipRule] at hev
  repeat' split at hev
  all_goals (first
    | exact Option.noConfusion hev
    | (simp only [Option.some.injEq] at hev
       subst hev
       trivial))

/-- The base put rule gates on `idle_cash`, where no position is held. -/
theorem basePutRule_ruleOk : RuleOk basePutRule := by
  intro m p c sig hInv hev
  simp only [basePutRule] at hev
  split at hev
  · simp only [Option.some.injEq] at hev
    subst hev
    show p.position = none
    rcases hp : p.position with _ | pos
    · rfl
    · exfalso
      rcases hInv.1.mp (by rw [hp]; rfl) with h | h <;>
        · rw [‹p.phase = Phase.idle_cash›] at h
          exact Phase.noConfusion h
  · exact Option.noConfusion hev

/-- The adaptive call rule gates on `holding_eth`, where a position is
held. -/
theorem adaptiveCallRule_ruleOk : RuleOk adaptiveCallRule := by
  intro m p c sig hInv hev
  simp only [adaptiveCallRule] at hev
  split at hev
  · simp only [Option.some.injEq] at hev
    subst hev
    show p.position.isSome = true
    exact hInv.1.mpr (Or.inl (by assumption))
  · exact Option.noConfusion hev

/-- The roll rule gates on `short_call`. -/
theorem rollCallRule_ruleOk : RuleOk rollCallRule := by
  intro m p c sig _hInv hev
  simp only [rollCallRule] at hev
  repeat' split at hev
  all_goals (first
    | exact Option.noConfusion hev
    | (simp only [Option.some.injEq] at hev
       subst hev
       exact fun _ => by assumption))

/-- Every rule of the default set (with the roll rule wired in) respects
the phase contract. -/
theorem defaultRulesWithRoll_ruleOk : ∀ r ∈ defaultRulesWithRoll, RuleOk r := by
  intro r hr
  simp only [defaultRulesWithRoll, List.mem_cons, List.not_mem_nil,
    or_false] at hr
  rcases hr with rfl | rfl | rfl | rfl
  · exact lowPremiumSkipRule_ruleOk
  · exact basePutRule_ruleOk
  · exact adaptiveCallRule_ruleOk
  · exact rollCallRule_ruleOk

/-- Witness for C3 at day zero of a concrete run with the default rules. -/
theorem phase_position_invariant_witness :
    (initialPortfolio.position.isSome = true ↔
      initialPortfolio.phase = .holding_eth ∨
        initialPortfolio.phase = .short_call) ∧
    (initialPortfolio.openOption.isSome = true ↔
      initialPortfolio.phase = .short_put ∨
        initialPortfolio.phase = .short_call) :=
  phase_position_invariant [] none defaultRulesWithRoll cfg0
    defaultRulesWithRoll_ruleOk 0
    { portfolio := initialPortfolio, signalLog := [], dailyStates := [] } rfl

/-! ## C1: the roll rule fires and an OPTION_ROLLED event is logged -/

/-- Is the event an `OPTION_ROLLED`? -/
def isOptionRolled : Event → Bool
  | .optionRolled _ _ _ _ _ _ _ _ _ => true
  | _ => false

/-- Sorting the default rule set by priority puts the roll rule
(priority 30) first. -/
theorem sortedDefaultWithRoll :
    List.insertionSort (fun a b => a.priority ≤ b.priority)
      defaultRulesWithRoll =
      [rollCallRule, lowPremiumSkipRule, basePutRule, adaptiveCallRule] := by
  rfl

/-- Under the trigger conditions the roll rule emits a `ROLL` signal. -/
theorem rollCallRule_fires (market : MarketSnapshot) (p : PortfolioState)
    (config : StrategyConfig) (rc : RollCallConfig) (opt : OpenOption)
    (hrc : config.rollCall = some rc) (hcred : rc.requireNetCredit = false)
    (hphase : p.phase = .short_call) (hopt : p.openOption = some opt)
    (hitm : market.spot ≥ opt.strike * (1 + rc.itmThresholdPct)) :
    ∃ ns nd rcost np, rollCallRule.evaluate market p config =
      some (.roll ns nd rcost np (np - rcost) "RollCallRule" "") := by
  simp only [rollCallRule, hrc, hopt, hphase, hcred, if_true]
  rw [if_pos hitm]
  norm_num

/-- C1: on a day where the portfolio is `short_call` mid-cycle with
`spot ≥ strike · (1 + itm_threshold_pct)` and `roll_call` configured with
`require_net_credit = false`, evaluating the default rule set yields a
`ROLL` signal, and the simulation day logs an entry containing an
`OPTION_ROLLED` event. -/
theorem rollCall_fires_and_logs (prices : List ℝ) (ivPath : Option (List ℝ))
    (config : StrategyConfig) (st : SimState) (day : ℕ)
    (rc : RollCallConfig) (opt : OpenOption)
    (hrc : config.rollCall = some rc)
    (hcred : rc.requireNetCredit = false)
    (hphase : st.portfolio.phase = .short_call)
    (hopt : st.portfolio.openOption = some opt)
    (hitm : prices.getD day 0 ≥ opt.strike * (1 + rc.itmThresholdPct))
    (hday : day < opt.expiryDay) :
    (∃ ns nd rcost np,
      evaluateRules defaultRulesWithRoll (mkMarket prices ivPath config day)
        st.portfolio config =
        .roll ns nd rcost np (np - rcost) "RollCallRule" "") ∧
    ∃ st', simDay prices ivPath defaultRulesWithRoll config st day = some st' ∧
      ∃ entry, st'.signalLog = st.signalLog ++ [entry] ∧
        ∃ e ∈ entry.events, isOptionRolled e = true := by
  have hspot : (mkMarket prices ivPath config day).spot = prices.getD day 0 :=
    rfl
  obtain ⟨ns, nd, rcost, np, hfire⟩ :=
    rollCallRule_fires (mkMarket prices ivPath config day) st.portfolio config
      rc opt hrc hcred hphase hopt (by rw [hspot]; exact hitm)
  have heval : evaluateRules defaultRulesWithRoll
      (mkMarket prices ivPath config day) st.portfolio config =
      .roll ns nd rcost np (np - rcost) "RollCallRule" "" := by
    unfold evaluateRules
    rw [sortedDefaultWithRoll]
    unfold firstSignal
    rw [hfire]
  refine ⟨⟨ns, nd, rcost, np, heval⟩, ?_⟩
  have hdp : ¬ isDecisionPoint day st.portfolio := by
    simp only [isDecisionPoint, hopt]
    exact not_le.mpr hday
  have hrt : rollTrigger (mkMarket prices ivPath config day) st.portfolio
      config day := by
    refine ⟨hdp, ?_⟩
    simp only [hrc, hopt]
    exact ⟨hphase, by rw [hspot]; exact hitm⟩
  have hexp : expiryStep (mkMarket prices ivPath config day) config
      st.portfolio st.signalLog day = some (st.portfolio, st.signalLog) := by
    unfold expiryStep
    simp only [hopt]
    rw [if_neg (not_le.mpr hday)]
  have hexec : execute (.roll ns nd rcost np (np - rcost) "RollCallRule" "")
      (mkMarket prices ivPath config day) st.portfolio config =
      [.optionRolled opt.strike ns nd (opt.premium * config.contracts)
        (rcost * config.contracts) np
        (2 * config.feePerTrade * config.contracts) day
        (day + config.cycleLengthDays)] := by
    simp [execute, hopt]
    rfl
  have hss : signalStep (mkMarket prices ivPath config day) config
      defaultRulesWithRoll st.portfolio st.signalLog day =
      (applyEvents st.portfolio
        (execute (.roll ns nd rcost np (np - rcost) "RollCallRule" "")
          (mkMarket prices ivPath config day) st.portfolio config),
       st.signalLog ++
        [{ day := day, market := mkMarket prices ivPath config day
           portfolioBefore := snapshotPortfolio st.portfolio
           signal := .roll ns nd rcost np (np - rcost) "RollCallRule" ""
           events := execute
             (.roll ns nd rcost np (np - rcost) "RollCallRule" "")
             (mkMarket prices ivPath config day) st.portfolio config
           portfolioAfter := snapshotPortfolio (applyEvents st.portfolio
             (execute (.roll ns nd rcost np (np - rcost) "RollCallRule" "")
               (mkMarket prices ivPath config day) st.portfolio config)) }]) := by
    unfold signalStep
    rw [heval]
  have hsim : simDay prices ivPath defaultRulesWithRoll config st day =
      some { portfolio := (signalStep (mkMarket prices ivPath config day)
               config defaultRulesWithRoll st.portfolio st.signalLog day).1
             signalLog := (signalStep (mkMarket prices ivPath config day)
               config defaultRulesWithRoll st.portfolio st.signalLog day).2
             dailyStates := st.dailyStates ++
               [toDailyState (mkMarket prices ivPath config day)
                 (signalStep (mkMarket prices ivPath config day) config
                   defaultRulesWithRoll st.portfolio st.signalLog day).1
                 config.contracts] } := by
    simp only [simDay]
    rw [if_pos (Or.inr hrt), hexp]
    rfl
  refine ⟨_, hsim, ?_⟩
  dsimp only
  rw [hss]
  refine ⟨_, rfl, ?_⟩
  dsimp only
  rw [hexec]
  exact ⟨_, List.mem_cons_self _ _, rfl⟩

/-- A concrete roll configuration (the one from the tests). -/
def rcW : RollCallConfig := { itmThresholdPct := 0.05, requireNetCredit := false }

/-- The baseline configuration with `roll_call` enabled. -/
def cfgRoll : StrategyConfig := { cfg0 with rollCall := some rcW }

/-- A concrete rallying price path. -/
def pricesW : List ℝ := [2500, 2600, 2700, 2800]

/-- A concrete mid-cycle short-call simulation state. -/
def stW : SimState := { portfolio := p1, signalLog := [], dailyStates := [] }

/-- Witness for C1: on day 3, spot 2800 against a 2600-strike call with a
5% threshold triggers a roll whose `OPTION_ROLLED` event is logged. -/
theorem rollCall_fires_and_logs_witness :
    ∃ st', simDay pricesW none defaultRulesWithRoll cfgRoll stW 3 = some st' ∧
      ∃ entry, st'.signalLog = stW.signalLog ++ [entry] ∧
        ∃ e ∈ entry.events, isOptionRolled e = true :=
  (rollCall_fires_and_logs pricesW none cfgRoll stW 3 rcW opt1 rfl rfl rfl rfl
    (by norm_num [pricesW, opt1, rcW, List.getD])
    (by norm_num [opt1])).2

end











